import Mathlib

/-!
Verification of the partitioned remote-futures pattern of the NYC-taxi
notebook (`src/notebooks/07-nyc-taxi-futures.ipynb`).

The notebook's own code is thin glue: the module-level `columns` list, the
row-group loader `read_row_group` (built on fastparquet's `_pre_allocate`
and `read_row_group_file`), the per-chunk reducer `f`, and the
submit/map/result calls against a distributed client.  The parquet
internals and the remote-execution client are external services, so they
are modelled here from the specification's contracts (§4.1, §4.2, §6);
definitions taken from those contracts carry a `Modelled from the spec:`
doc comment.  Everything else is embedded directly from the notebook
source.  Cell values are modelled as integers, which covers the columns
the claims are about (`passenger_count` is a small non-negative integer
column).
-/

namespace NycTaxi

/-- A named column of an in-memory table: an ordered sequence of values. -/
structure Column where
  name : String
  values : List Int
  deriving DecidableEq

/-- An in-memory table: an ordered sequence of named columns. -/
structure Table where
  cols : List Column
  deriving DecidableEq

/-- A partition handle (fastparquet row group): its declared row count and
the underlying cell contents of the partition, indexed by column name and
row index.  The cell function stands for the bytes sitting in the backing
storage for this partition. -/
structure RowGroup where
  num_rows : Nat
  cell : String → Nat → Int

/-- The dataset catalog (`pf` in the notebook): a global column schema and
the list of partition handles (`pf.row_groups`). -/
structure ParquetFile where
  schema : List String
  row_groups : List RowGroup

/-- The module-level `columns` list of the notebook, verbatim. -/
def columns : List String :=
  ["tpep_pickup_datetime", "passenger_count", "pickup_longitude", "pickup_latitude",
   "dropoff_longitude", "dropoff_latitude", "payment_type", "fare_amount", "tip_amount",
   "total_amount"]

/-- Modelled from the spec: fastparquet's `_pre_allocate` (not part of this
repository) allocates a dataframe with `num_rows` rows for the requested
columns, together with per-column views into it; the views are the columns
themselves here. -/
def pre_allocate (num_rows : Nat) (cols : List String) : Table :=
  ⟨cols.map (fun c => ⟨c, List.replicate num_rows 0⟩)⟩

/-- Modelled from the spec: fastparquet's `read_row_group_file` (not part
of this repository) performs the I/O that fills the pre-allocated column
views with the partition's cell contents, one value per allocated row. -/
def read_row_group_file (rg : RowGroup) (t : Table) : Table :=
  ⟨t.cols.map (fun c => ⟨c.name, (List.range c.values.length).map (rg.cell c.name)⟩)⟩

/-- The notebook's `read_row_group`: pre-allocate a frame with `rg.num_rows`
rows for the module-level `columns`, then fill the views from the row
group's file.  It takes only the partition handle; the column choice is the
fixed module-level list. -/
def read_row_group (rg : RowGroup) : Table :=
  read_row_group_file rg (pre_allocate rg.num_rows columns)

/-- The loader with an explicit per-call column subset, as in the spec's
`load(handle, columns)` contract; `read_row_group` is this applied to the
fixed `columns` list. -/
def loadTable (rg : RowGroup) (cols : List String) : Table :=
  read_row_group_file rg (pre_allocate rg.num_rows cols)

/-- Column lookup by name (`df.passenger_count` style access): the values of
the first column with the given name, empty if absent. -/
def getColumn (t : Table) (c : String) : List Int :=
  match t.cols.find? (fun col => col.name == c) with
  | some col => col.values
  | none => []

/-- The notebook's per-chunk reducer, verbatim:
`def f(df): return df.passenger_count.sum()`. -/
def f (df : Table) : Int :=
  (getColumn df "passenger_count").sum

/-- Errors of the Chunk Loader, from the spec's §4.1 / §7 error kinds. -/
inductive LoadError where
  | schemaMismatch (col : String)
  | sourceUnavailable
  deriving DecidableEq

/-- Modelled from the spec: the Chunk Loader contract `load(handle,
columns)` (the validation lives in the parquet library, not in this
repository).  It checks the requested columns against the dataset schema
before touching storage: on a missing column it fails with `SchemaMismatch`
having performed no I/O; otherwise it reads the partition.  The second
component counts the reads performed against the partition's backing
storage. -/
def load (schema : List String) (rg : RowGroup) (cols : List String) :
    Except LoadError Table × Nat :=
  match cols.find? (fun c => !(schema.contains c)) with
  | some c => (Except.error (LoadError.schemaMismatch c), 0)
  | none => (Except.ok (loadTable rg cols), 1)

/-- One resolved slot of the client's future store: which worker ran the
task and the task's outcome. -/
structure FutureEntry (α : Type) where
  worker : Nat
  outcome : Except String α

/-- Modelled from the spec: the state of the Remote Task Submitter (§4.2)
— the dask client is not part of this repository.  `entries` holds one
slot per submitted task, `assign` is the scheduler's worker-assignment
policy (task id → worker), and `execLog` records, in order, the ids of the
tasks the workers have executed. -/
structure ClientState (α : Type) where
  entries : List (FutureEntry α)
  assign : Nat → Nat
  execLog : List Nat

/-- A future: a handle (the task id) to a value living on a worker. -/
structure Future (α : Type) where
  id : Nat
  deriving DecidableEq

/-- Modelled from the spec: submission dispatches a task to a worker and
immediately returns a Future; the worker's execution is recorded in the
store and in the execution log, and its outcome — value or error — is held
remotely, never surfaced at submission. -/
def submitTask (st : ClientState α) (task : Unit → Except String α) :
    ClientState α × Future α :=
  (⟨st.entries ++ [⟨st.assign st.entries.length, task ()⟩], st.assign,
    st.execLog ++ [st.entries.length]⟩,
   ⟨st.entries.length⟩)

/-- Modelled from the spec: `submit(function, *args)` for a plain (non-
future) argument: the worker applies the function to the argument. -/
def submit (st : ClientState α) (g : β → α) (x : β) : ClientState α × Future α :=
  submitTask st (fun _ => Except.ok (g x))

/-- The outcome held on the worker for a future: the remote value or the
remote error, as stored; an unknown id reports a cancelled future. -/
def rawOutcome (st : ClientState α) (fut : Future α) : Except String α :=
  match st.entries[fut.id]? with
  | some e => e.outcome
  | none => Except.error "CancelledError"

/-- Modelled from the spec: `result(future)` — the single point of
remote-to-local transfer.  On success it returns the value; on failure it
re-raises the remote error locally, tagged with the worker that produced
it, the original message preserved. -/
def resultValue (st : ClientState α) (fut : Future α) : Except (Nat × String) α :=
  match st.entries[fut.id]? with
  | some e =>
    match e.outcome with
    | Except.ok v => Except.ok v
    | Except.error m => Except.error (e.worker, m)
  | none => Except.error (0, "CancelledError")

/-- A `result()` call as an observable step on the client: it yields the
retrieved value and the client state the call leaves behind — retrieval
transfers the value but executes nothing and forgets nothing. -/
def resultStep (st : ClientState α) (fut : Future α) :
    Except (Nat × String) α × ClientState α :=
  (resultValue st fut, st)

/-- Modelled from the spec: `map(function, iterable_of_args)` applies
`submit` element-wise over plain arguments, returning one future per
element in input order. -/
def clientMap (st : ClientState α) (g : β → α) : List β → ClientState α × List (Future α)
  | [] => (st, [])
  | x :: xs =>
    let p := submit st g x
    let q := clientMap p.1 g xs
    (q.1, p.2 :: q.2)

/-- Modelled from the spec: `submit(function, future)` with a future
argument — the new task is deferred until its dependency resolves, then
the worker applies the function to the dependency's value; a failed
dependency fails the task. -/
def submitOn (st : ClientState α) (g : α → Except String α) (dep : Future α) :
    ClientState α × Future α :=
  submitTask st (fun _ => (rawOutcome st dep).bind g)

/-- Modelled from the spec: `map(function, futures)` — `submit` applied
element-wise over future arguments, in input order. -/
def mapOn (st : ClientState α) (g : α → Except String α) :
    List (Future α) → ClientState α × List (Future α)
  | [] => (st, [])
  | d :: ds =>
    let p := submitOn st g d
    let q := mapOn p.1 g ds
    (q.1, p.2 :: q.2)

/-- Resolution of a list of dependency futures on a worker: all their
values, or the first dependency failure. -/
def resolveAll (st : ClientState α) : List (Future α) → Except String (List α)
  | [] => Except.ok []
  | d :: ds => (rawOutcome st d).bind (fun v => (resolveAll st ds).map (fun vs => v :: vs))

/-- Modelled from the spec: `submit(function, list_of_futures)` — the
combiner task waits for all its dependencies, then the worker applies the
function to their values. -/
def submitOnList (st : ClientState α) (g : List α → Except String α)
    (deps : List (Future α)) : ClientState α × Future α :=
  submitTask st (fun _ => (resolveAll st deps).bind g)

/-- The universe of values the notebook's pipeline moves through futures:
in-memory tables (loaded chunks) and integers (partial and final sums). -/
inductive Value where
  | table : Table → Value
  | int : Int → Value
  deriving DecidableEq

/-- The reducer `f` as a remote task over pipeline values: it expects a
table chunk and produces its passenger-count sum. -/
def fTask (v : Value) : Except String Value :=
  match v with
  | Value.table t => Except.ok (Value.int (f t))
  | Value.int _ => Except.error "TypeError"

/-- Reads a list of pipeline values as integers, failing on a non-integer. -/
def asInts : List Value → Except String (List Int)
  | [] => Except.ok []
  | Value.int n :: vs => (asInts vs).map (fun ns => n :: ns)
  | Value.table _ :: _ => Except.error "TypeError"

/-- The builtin `sum` as the remote combiner task over pipeline values. -/
def sumTask (vs : List Value) : Except String Value :=
  (asInts vs).map (fun ns => Value.int ns.sum)

/-- Notebook cell: `futures = client.map(read_row_group, pf.row_groups)` —
one loader submission per partition, from a fresh client whose scheduler
assigns workers by the given policy. -/
def pipeStage1 (assign : Nat → Nat) (rgs : List RowGroup) :
    ClientState Value × List (Future Value) :=
  clientMap ⟨[], assign, []⟩ (fun rg => Value.table (read_row_group rg)) rgs

/-- Notebook cell: `counts = client.map(f, futures)` — the per-chunk sum
reducer mapped over the chunk futures. -/
def pipeStage2 (assign : Nat → Nat) (rgs : List RowGroup) :
    ClientState Value × List (Future Value) :=
  mapOn (pipeStage1 assign rgs).1 fTask (pipeStage1 assign rgs).2

/-- Notebook cell: `total = client.submit(sum, counts)` — the global sum
combiner submitted over the partial-sum futures. -/
def pipeStage3 (assign : Nat → Nat) (rgs : List RowGroup) :
    ClientState Value × Future Value :=
  submitOnList (pipeStage2 assign rgs).1 sumTask (pipeStage2 assign rgs).2

/-- Notebook cell: `total.result()` — the retrieved value of the whole
hand-rolled pipeline. -/
def pipelineTotal (assign : Nat → Nat) (rgs : List RowGroup) :
    Except (Nat × String) Value :=
  resultValue (pipeStage3 assign rgs).1 (pipeStage3 assign rgs).2

/-- The passenger-count column of one locally loaded partition. -/
def chunkData (rg : RowGroup) : List Int :=
  getColumn (read_row_group rg) "passenger_count"

/-- The passenger-count data of the whole dataset, obtained locally by
concatenating every partition's loaded table. -/
def localData (rgs : List RowGroup) : List Int :=
  (rgs.map chunkData).flatten

/-- The true total passenger count: concatenate all partition tables
locally and sum. -/
def localTotal (rgs : List RowGroup) : Int :=
  (localData rgs).sum

/-- One chunk's partial sum, as the reducer `f` computes it. -/
def chunkSum (rg : RowGroup) : Int :=
  f (read_row_group rg)

/-- One chunk's row count for the passenger-count column. -/
def chunkCount (rg : RowGroup) : Nat :=
  (chunkData rg).length

/-- The combined sum of the per-chunk (sum, count) pairs. -/
def combinedSum (rgs : List RowGroup) : Int :=
  (rgs.map chunkSum).sum

/-- The combined count of the per-chunk (sum, count) pairs. -/
def combinedCount (rgs : List RowGroup) : Nat :=
  (rgs.map chunkCount).sum

/-- The hand-rolled weighted mean: combined sum over combined count. -/
def weightedMean (rgs : List RowGroup) : Rat :=
  (combinedSum rgs : Rat) / (combinedCount rgs : Rat)

/-- The true global mean, computed by loading the entire dataset locally. -/
def globalMean (rgs : List RowGroup) : Rat :=
  ((localData rgs).sum : Rat) / ((localData rgs).length : Rat)

/-- Modelled from the spec: the parallel-dataframe facade's
`dd.read_parquet(..., columns=cols)` (dask.dataframe is not part of this
repository) — the big dataframe is the column-wise concatenation of every
partition's loaded chunk, restricted to the requested columns. -/
def dd_read_parquet (pf : ParquetFile) (cols : List String) : Table :=
  ⟨cols.map (fun c =>
    ⟨c, (pf.row_groups.map (fun rg => getColumn (loadTable rg cols) c)).flatten⟩)⟩

/-- Notebook cell: `df = dd.read_parquet(..., columns=columns, ...)`. -/
def facadeFrame (pf : ParquetFile) : Table :=
  dd_read_parquet pf columns

/-- Facade aggregate `df.passenger_count.sum().compute()`. -/
def facadeSum (pf : ParquetFile) : Int :=
  (getColumn (facadeFrame pf) "passenger_count").sum

/-- Facade aggregate `df.passenger_count.mean().compute()`. -/
def facadeMean (pf : ParquetFile) : Rat :=
  ((getColumn (facadeFrame pf) "passenger_count").sum : Rat) /
    ((getColumn (facadeFrame pf) "passenger_count").length : Rat)

/-- Facade aggregate `df.passenger_count.value_counts().compute()`, read at
one key: how many rides carried `v` passengers. -/
def facadeValueCounts (pf : ParquetFile) (v : Int) : Nat :=
  (getColumn (facadeFrame pf) "passenger_count").count v

/-- The hand-rolled value-counts: per-chunk counts of the key, merged by
summing across chunks. -/
def handValueCounts (pf : ParquetFile) (v : Int) : Nat :=
  (pf.row_groups.map (fun rg => (chunkData rg).count v)).sum

/-- The hand-rolled mean over a dataset catalog, as in exercise 3: per-chunk
(sum, count) pairs combined by weighted division. -/
def handMean (pf : ParquetFile) : Rat :=
  weightedMean pf.row_groups

/-- `st` grew into `st'` by submissions only: the store is append-only and
the assignment policy is unchanged. -/
def stateExtends (st st' : ClientState α) : Prop :=
  st'.assign = st.assign ∧ ∃ l, st'.entries = st.entries ++ l

/-- A sample partition of 1000 rows whose passenger counts are 2,2,2,2,1
repeating: its chunk sum is 1800. -/
def rg1000 : RowGroup :=
  ⟨1000, fun _ i => if i % 5 = 4 then 1 else 2⟩

/-- A sample partition of 1500 rows with the same repeating pattern: its
chunk sum is 2700. -/
def rg1500 : RowGroup :=
  ⟨1500, fun _ i => if i % 5 = 4 then 1 else 2⟩

/-- A sample partition of 2000 rows with the same repeating pattern: its
chunk sum is 3600. -/
def rg2000 : RowGroup :=
  ⟨2000, fun _ i => if i % 5 = 4 then 1 else 2⟩

/-- A tiny sample partition of 2 rows of zeroes, for concrete checks. -/
def rgW : RowGroup :=
  ⟨2, fun _ _ => 0⟩

/-- A sample fresh client over integer values whose scheduler sends every
task to worker 7, for concrete checks. -/
def stW : ClientState Int :=
  ⟨[], fun _ => 7, []⟩

/-- Recognises a `SchemaMismatch` outcome of the Chunk Loader. -/
def isSchemaMismatch : Except LoadError Table → Bool
  | Except.error (LoadError.schemaMismatch _) => true
  | _ => false

theorem stateExtends_refl (st : ClientState α) : stateExtends st st :=
  ⟨rfl, [], by simp⟩

theorem stateExtends_trans {st₁ st₂ st₃ : ClientState α}
    (h₁ : stateExtends st₁ st₂) (h₂ : stateExtends st₂ st₃) : stateExtends st₁ st₃ := by
  obtain ⟨ha₁, l₁, he₁⟩ := h₁
  obtain ⟨ha₂, l₂, he₂⟩ := h₂
  exact ⟨ha₂.trans ha₁, l₁ ++ l₂, by rw [he₂, he₁, List.append_assoc]⟩

theorem stateExtends_length {st st' : ClientState α} (h : stateExtends st st') :
    st.entries.length ≤ st'.entries.length := by
  obtain ⟨-, l, he⟩ := h
  simp [he]

theorem submitTask_extends (st : ClientState α) (task : Unit → Except String α) :
    stateExtends st (submitTask st task).1 :=
  ⟨rfl, _, rfl⟩

theorem submitTask_entries_length (st : ClientState α) (task : Unit → Except String α) :
    (submitTask st task).1.entries.length = st.entries.length + 1 := by
  simp [submitTask]

theorem rawOutcome_submitTask (st : ClientState α) (task : Unit → Except String α) :
    rawOutcome (submitTask st task).1 (submitTask st task).2 = task () := by
  simp [submitTask, rawOutcome, List.getElem?_concat_length]

theorem rawOutcome_mono {st st' : ClientState α} {fut : Future α}
    (h : stateExtends st st') (hv : fut.id < st.entries.length) :
    rawOutcome st' fut = rawOutcome st fut := by
  obtain ⟨-, l, he⟩ := h
  simp [rawOutcome, he, List.getElem?_append_left hv]

theorem resultValue_eq_ok {st : ClientState α} {fut : Future α} {v : α}
    (h : rawOutcome st fut = Except.ok v) : resultValue st fut = Except.ok v := by
  unfold rawOutcome at h
  unfold resultValue
  cases hg : st.entries[fut.id]? with
  | none => rw [hg] at h; exact absurd h (by simp)
  | some e => rw [hg] at h; simp only [] at h; simp [h]

/-- C2: retrieving the result of a remote submission of a pure function
equals computing the function locally: `result(submit(f, x)) = f(x)`. -/
theorem result_submit_eq_local (st : ClientState α) (g : β → α) (x : β) :
    resultValue (submit st g x).1 (submit st g x).2 = Except.ok (g x) :=
  resultValue_eq_ok (rawOutcome_submitTask st (fun _ => Except.ok (g x)))

/-- C6: a failing remote computation is invisible at submission — `submit`
always returns a Future (the store grows by exactly the new slot) — and the
remote error surfaces only at `result()`, re-raised with the original
message preserved, tagged with the worker that ran the task. -/
theorem submit_defers_remote_failure (st : ClientState α)
    (task : Unit → Except String α) (msg : String) (h : task () = Except.error msg) :
    (submitTask st task).1.entries.length = st.entries.length + 1 ∧
    (submitTask st task).2.id = st.entries.length ∧
    resultValue (submitTask st task).1 (submitTask st task).2
      = Except.error (st.assign st.entries.length, msg) := by
  refine ⟨submitTask_entries_length st task, rfl, ?_⟩
  simp [submitTask, resultValue, List.getElem?_concat_length, h]

theorem submit_defers_remote_failure_witness :
    (submitTask stW (fun _ => Except.error "boom")).1.entries.length
      = stW.entries.length + 1 ∧
    (submitTask stW (fun _ => Except.error "boom")).2.id = stW.entries.length ∧
    resultValue (submitTask stW (fun _ => Except.error "boom")).1
        (submitTask stW (fun _ => Except.error "boom")).2
      = Except.error (stW.assign stW.entries.length, "boom") :=
  submit_defers_remote_failure stW (fun _ => Except.error "boom") "boom" rfl

/-- C7: calling `result()` a second time on the same Future returns the
same value as the first call, and neither call makes a worker execute
anything — the execution log is exactly what it was before either call. -/
theorem result_twice_no_reexecution (st : ClientState α) (fut : Future α) :
    (resultStep (resultStep st fut).2 fut).1 = (resultStep st fut).1 ∧
    (resultStep st fut).2.execLog = st.execLog ∧
    (resultStep (resultStep st fut).2 fut).2.execLog = st.execLog :=
  ⟨rfl, rfl, rfl⟩

theorem clientMap_aux (g : β → α) (xs : List β) : ∀ st : ClientState α,
    stateExtends st (clientMap st g xs).1 ∧
    (∀ fut ∈ (clientMap st g xs).2, fut.id < (clientMap st g xs).1.entries.length) ∧
    (clientMap st g xs).2.map (rawOutcome (clientMap st g xs).1)
      = xs.map (fun x => Except.ok (g x)) := by
  induction xs with
  | nil =>
    intro st
    exact ⟨stateExtends_refl st, by simp [clientMap], by simp [clientMap]⟩
  | cons x xs ih =>
    intro st
    obtain ⟨ext2, val2, out2⟩ := ih (submit st g x).1
    have hid : (submit st g x).2.id < (submit st g x).1.entries.length := by
      simp [submit, submitTask]
    have hcm : clientMap st g (x :: xs)
        = ((clientMap (submit st g x).1 g xs).1,
           (submit st g x).2 :: (clientMap (submit st g x).1 g xs).2) := rfl
    rw [hcm]
    refine ⟨stateExtends_trans (submitTask_extends st _) ext2, ?_, ?_⟩
    · intro fut hfut
      rcases List.mem_cons.mp hfut with hfut | hfut
      · subst hfut
        exact lt_of_lt_of_le hid (stateExtends_length ext2)
      · exact val2 fut hfut
    · rw [List.map_cons, out2, rawOutcome_mono ext2 hid, List.map_cons]
      simp only [submit]
      rw [rawOutcome_submitTask]

theorem mapOn_aux (g : α → Except String α) (deps : List (Future α)) :
    ∀ st : ClientState α, (∀ d ∈ deps, d.id < st.entries.length) →
    stateExtends st (mapOn st g deps).1 ∧
    (∀ fut ∈ (mapOn st g deps).2, fut.id < (mapOn st g deps).1.entries.length) ∧
    (mapOn st g deps).2.map (rawOutcome (mapOn st g deps).1)
      = deps.map (fun d => (rawOutcome st d).bind g) := by
  induction deps with
  | nil =>
    intro st _
    exact ⟨stateExtends_refl st, by simp [mapOn], by simp [mapOn]⟩
  | cons d ds ih =>
    intro st hv
    have hvst : d.id < st.entries.length := hv d (List.mem_cons_self d ds)
    have hvds : ∀ d' ∈ ds, d'.id < (submitOn st g d).1.entries.length := by
      intro d' hd'
      calc d'.id < st.entries.length := hv d' (List.mem_cons_of_mem d hd')
        _ ≤ (submitOn st g d).1.entries.length :=
          stateExtends_length (submitTask_extends st _)
    obtain ⟨ext2, val2, out2⟩ := ih (submitOn st g d).1 hvds
    have hid : (submitOn st g d).2.id < (submitOn st g d).1.entries.length := by
      simp [submitOn, submitTask]
    have hcm : mapOn st g (d :: ds)
        = ((mapOn (submitOn st g d).1 g ds).1,
           (submitOn st g d).2 :: (mapOn (submitOn st g d).1 g ds).2) := rfl
    rw [hcm]
    refine ⟨stateExtends_trans (submitTask_extends st _) ext2, ?_, ?_⟩
    · intro fut hfut
      rcases List.mem_cons.mp hfut with hfut | hfut
      · subst hfut
        exact lt_of_lt_of_le hid (stateExtends_length ext2)
      · exact val2 fut hfut
    · rw [List.map_cons, out2, rawOutcome_mono ext2 hid, List.map_cons]
      have htl : ds.map (fun d' => (rawOutcome (submitOn st g d).1 d').bind g)
          = ds.map (fun d' => (rawOutcome st d').bind g) := by
        apply List.map_congr_left
        intro d' hd'
        have hext : stateExtends st (submitOn st g d).1 :=
          submitTask_extends st (fun _ => (rawOutcome st d).bind g)
        rw [rawOutcome_mono hext (hv d' (List.mem_cons_of_mem d hd'))]
      rw [htl]
      simp only [submitOn]
      rw [rawOutcome_submitTask]

theorem resolveAll_of_map_ok {st : ClientState α} :
    ∀ (deps : List (Future α)) (vs : List α),
    deps.map (rawOutcome st) = vs.map Except.ok →
    resolveAll st deps = Except.ok vs := by
  intro deps
  induction deps with
  | nil =>
    intro vs h
    cases vs with
    | nil => rfl
    | cons v vs => simp at h
  | cons d ds ih =>
    intro vs h
    cases vs with
    | nil => simp at h
    | cons v vs =>
      simp only [List.map_cons, List.cons.injEq] at h
      simp [resolveAll, h.1, ih vs h.2, Except.bind, Except.map]

theorem asInts_map_int : ∀ ns : List Int, asInts (ns.map Value.int) = Except.ok ns := by
  intro ns
  induction ns with
  | nil => rfl
  | cons n ns ih => simp [asInts, ih, Except.map]

theorem localData_sum (rgs : List RowGroup) :
    (localData rgs).sum = (rgs.map chunkSum).sum := by
  rw [localData, List.sum_flatten, List.map_map]
  rfl

theorem localData_length (rgs : List RowGroup) :
    (localData rgs).length = (rgs.map chunkCount).sum := by
  rw [localData, List.length_flatten, List.map_map]
  rfl

theorem count_flatten_sum (v : Int) : ∀ ls : List (List Int),
    ls.flatten.count v = (ls.map (fun c => c.count v)).sum := by
  intro ls
  induction ls with
  | nil => rfl
  | cons x xs ih => simp [List.count_append, ih]

theorem localData_count (rgs : List RowGroup) (v : Int) :
    (localData rgs).count v = (rgs.map (fun rg => (chunkData rg).count v)).sum := by
  rw [localData, count_flatten_sum, List.map_map]
  rfl

theorem pipelineTotal_eq (assign : Nat → Nat) (rgs : List RowGroup) :
    pipelineTotal assign rgs = Except.ok (Value.int ((rgs.map chunkSum).sum)) := by
  unfold pipelineTotal pipeStage3 pipeStage2 pipeStage1
  obtain ⟨ext1, val1, out1⟩ :=
    clientMap_aux (fun rg => Value.table (read_row_group rg)) rgs ⟨[], assign, []⟩
  obtain ⟨ext2, val2, out2⟩ :=
    mapOn_aux fTask
      (clientMap ⟨[], assign, []⟩ (fun rg => Value.table (read_row_group rg)) rgs).2
      (clientMap ⟨[], assign, []⟩ (fun rg => Value.table (read_row_group rg)) rgs).1 val1
  have outs :
      (mapOn (clientMap ⟨[], assign, []⟩ (fun rg => Value.table (read_row_group rg)) rgs).1
        fTask
        (clientMap ⟨[], assign, []⟩ (fun rg => Value.table (read_row_group rg)) rgs).2).2.map
        (rawOutcome
          (mapOn (clientMap ⟨[], assign, []⟩ (fun rg => Value.table (read_row_group rg)) rgs).1
            fTask
            (clientMap ⟨[], assign, []⟩ (fun rg => Value.table (read_row_group rg)) rgs).2).1)
      = (rgs.map (fun rg => Value.int (chunkSum rg))).map Except.ok := by
    rw [out2]
    have hcomp :
        (clientMap ⟨[], assign, []⟩ (fun rg => Value.table (read_row_group rg)) rgs).2.map
          (fun d =>
            (rawOutcome
              (clientMap ⟨[], assign, []⟩ (fun rg => Value.table (read_row_group rg)) rgs).1
              d).bind fTask)
        = ((clientMap ⟨[], assign, []⟩ (fun rg => Value.table (read_row_group rg)) rgs).2.map
            (rawOutcome
              (clientMap ⟨[], assign, []⟩
                (fun rg => Value.table (read_row_group rg)) rgs).1)).map
            (fun o => o.bind fTask) := by
      rw [List.map_map]
      rfl
    rw [hcomp, out1, List.map_map, List.map_map]
    rfl
  apply resultValue_eq_ok
  show rawOutcome
      (submitOnList _ sumTask
        (mapOn _ fTask (clientMap ⟨[], assign, []⟩ _ rgs).2).2).1
      (submitOnList _ sumTask (mapOn _ fTask (clientMap ⟨[], assign, []⟩ _ rgs).2).2).2
    = _
  unfold submitOnList
  rw [rawOutcome_submitTask]
  rw [resolveAll_of_map_ok _ (rgs.map (fun rg => Value.int (chunkSum rg))) outs]
  show sumTask (rgs.map (fun rg => Value.int (chunkSum rg))) = _
  unfold sumTask
  have : rgs.map (fun rg => Value.int (chunkSum rg)) = (rgs.map chunkSum).map Value.int := by
    rw [List.map_map]
    rfl
  rw [this, asInts_map_int]
  rfl

/-- C4: `map(function, iterable_of_args)` returns one Future per input
element, the output sequence having the same length as the input and the
Future at each position holding the function applied to the input element
at that same position. -/
theorem map_preserves_length_and_order (st : ClientState α) (g : β → α) (xs : List β) :
    (clientMap st g xs).2.length = xs.length ∧
    (clientMap st g xs).2.map (rawOutcome (clientMap st g xs).1)
      = xs.map (fun x => Except.ok (g x)) := by
  obtain ⟨-, -, out⟩ := clientMap_aux g xs st
  refine ⟨?_, out⟩
  have h := congrArg List.length out
  simpa using h

/-- C1: submitting the chunk loader per partition, mapping the per-chunk
sum reducer over the futures and submitting the global sum combiner yields
exactly the total obtained by concatenating all partition tables locally
and summing — for every worker-assignment policy and every submission
order of the partitions (the combiner, sum, being commutative and
associative). -/
theorem futures_pipeline_eq_local_total (assign : Nat → Nat)
    (rgs rgs' : List RowGroup) (hperm : List.Perm rgs' rgs) :
    pipelineTotal assign rgs' = Except.ok (Value.int (localTotal rgs)) := by
  rw [pipelineTotal_eq assign rgs']
  have hsum : (rgs'.map chunkSum).sum = (rgs.map chunkSum).sum :=
    (hperm.map chunkSum).sum_eq
  rw [hsum, localTotal, localData_sum]

theorem futures_pipeline_eq_local_total_witness :
    pipelineTotal (fun _ => 0) [rg1500, rg1000, rg2000]
      = Except.ok (Value.int (localTotal [rg1000, rg1500, rg2000])) :=
  futures_pipeline_eq_local_total (fun _ => 0) [rg1000, rg1500, rg2000]
    [rg1500, rg1000, rg2000] (List.Perm.swap rg1000 rg1500 [rg2000])

theorem loadTable_lengths (rg : RowGroup) (cols : List String) :
    ∀ c ∈ (loadTable rg cols).cols, c.values.length = rg.num_rows := by
  intro c hc
  simp only [loadTable, read_row_group_file, pre_allocate, List.map_map, List.mem_map,
    Function.comp] at hc
  obtain ⟨nm, -, hc⟩ := hc
  rw [← hc]
  simp

/-- C3: whenever the chunk loader succeeds on a partition handle and a
requested column subset, every column of the returned table has length
equal to the handle's declared row count; the notebook's `read_row_group`
(the loader at the fixed module-level column list) satisfies the same
bound. -/
theorem load_ok_column_lengths (schema : List String) (rg : RowGroup)
    (cols : List String) (t : Table) (h : (load schema rg cols).1 = Except.ok t) :
    (∀ c ∈ t.cols, c.values.length = rg.num_rows) ∧
    (∀ c ∈ (read_row_group rg).cols, c.values.length = rg.num_rows) := by
  constructor
  · unfold load at h
    cases hf : cols.find? (fun c => !(schema.contains c)) with
    | some c => rw [hf] at h; exact absurd h (by simp)
    | none =>
      rw [hf] at h
      simp only [Except.ok.injEq] at h
      rw [← h]
      exact loadTable_lengths rg cols
  · exact loadTable_lengths rg columns

theorem load_ok_column_lengths_witness :
    (Column.mk "a" [0, 0]).values.length = rgW.num_rows :=
  (load_ok_column_lengths ["a", "b"] rgW ["a"] (Table.mk [Column.mk "a" [0, 0]]) rfl).1
    (Column.mk "a" [0, 0]) (by simp)

/-- C5: when a requested column is absent from the dataset schema, the
chunk loader fails with a `SchemaMismatch` error and performs zero reads
against the partition's backing storage. -/
theorem load_schema_mismatch_before_io (schema : List String) (rg : RowGroup)
    (cols : List String) (c : String) (hmem : c ∈ cols) (habs : c ∉ schema) :
    isSchemaMismatch (load schema rg cols).1 = true ∧
    (load schema rg cols).2 = 0 := by
  unfold load
  cases hf : cols.find? (fun x => !(schema.contains x)) with
  | none =>
    exfalso
    have hall := List.find?_eq_none.mp hf c hmem
    simp only [Bool.not_eq_true, Bool.not_eq_false] at hall
    exact habs (by simpa using hall)
  | some c₀ =>
    exact ⟨rfl, rfl⟩

theorem load_schema_mismatch_before_io_witness :
    isSchemaMismatch (load ["a"] rgW ["zzz"]).1 = true ∧
    (load ["a"] rgW ["zzz"]).2 = 0 :=
  load_schema_mismatch_before_io ["a"] rgW ["zzz"] "zzz" (by simp) (by simp)

theorem facade_pc (pf : ParquetFile) :
    getColumn (facadeFrame pf) "passenger_count" = localData pf.row_groups :=
  rfl

/-- C9: dividing the combined per-chunk sum by the combined per-chunk
count yields exactly the global mean computed by loading the entire
dataset locally and averaging (exact rational arithmetic, hence within any
floating-point tolerance). -/
theorem weighted_mean_eq_global_mean (rgs : List RowGroup) :
    weightedMean rgs = globalMean rgs := by
  unfold weightedMean globalMean combinedSum combinedCount
  rw [localData_sum, localData_length]

/-- C8: on the same dataset and column subset, the hand-rolled futures
pipeline and the parallel-dataframe facade agree numerically: the pipeline
total equals `df.passenger_count.sum()`, the weighted per-chunk mean equals
`df.passenger_count.mean()`, and the per-chunk value counts merged by key
equal `df.passenger_count.value_counts()` at every key. -/
theorem handrolled_eq_facade (assign : Nat → Nat) (pf : ParquetFile) :
    pipelineTotal assign pf.row_groups = Except.ok (Value.int (facadeSum pf)) ∧
    handMean pf = facadeMean pf ∧
    ∀ v : Int, handValueCounts pf v = facadeValueCounts pf v := by
  refine ⟨?_, ?_, ?_⟩
  · rw [pipelineTotal_eq]
    have hs : facadeSum pf = (pf.row_groups.map chunkSum).sum := by
      unfold facadeSum
      rw [facade_pc, localData_sum]
    rw [hs]
  · unfold handMean weightedMean combinedSum combinedCount facadeMean
    rw [facade_pc, localData_sum, localData_length]
  · intro v
    unfold handValueCounts facadeValueCounts
    rw [facade_pc, localData_count]

/-- C10: the notebook's loader takes only the partition handle — the
column choice is the module-level `columns` list: for every row group,
`read_row_group(rg)` returns a table whose columns are exactly those ten
names, in that fixed order. -/
theorem read_row_group_fixed_ten_columns (rg : RowGroup) :
    (read_row_group rg).cols.map Column.name = columns ∧
    columns = ["tpep_pickup_datetime", "passenger_count", "pickup_longitude",
      "pickup_latitude", "dropoff_longitude", "dropoff_latitude", "payment_type",
      "fare_amount", "tip_amount", "total_amount"] :=
  ⟨rfl, rfl⟩

end NycTaxi
